import Mathlib

/-!
Shallow embedding of the connector-sdk core, translated from the Go sources:

* `src/unnamed/part_006`: `TopicMap`, `defaultMatchTopic`, `NewTopicMap`,
  `TopicMap.Match`, `TopicMap.Sync`, `TopicMap.Topics`.
* `src/unnamed/part_004`: `Invoker`, `InvokerResponse`, `NewInvoker`,
  `Invoker.Invoke`, `Invoker.InvokeWithTopic` and the lower-level
  `Invoker.invoke` helper.
* `src/unnamed/part_005`: the functional options (`InvokerOptions`,
  `InvokeOptions` and their `With...` constructors).

Modelling conventions:

* Go maps are association lists, one entry per key; the list order stands in
  for the (unspecified) map iteration order.
* `http.Header` is an association list from a canonical header key to its
  list of values, with `headerGet` / `headerSet` / `headerAdd` mirroring the
  `net/http` operations on canonical keys.
* A Go pointer that may be nil becomes `Option`; a nil-pointer dereference
  (runtime panic) makes the modelled function return `none`.
* The HTTP client and `http.NewRequest` are an oracle (`Net`): the oracle
  says whether request construction fails for a URL and what `client.Do`
  returns for a request.  The `Responses` channel is modelled by the list of
  values sent on it during a call, and the list of requests handed to
  `client.Do` during a call is recorded so that a statement of the form
  "no network call happens" is expressible.
* Wall-clock durations, contexts and logging output are outside the model
  (the `Duration` and `Context` fields of `InvokerResponse` are dropped).
-/

namespace ConnectorSdk

/-- Payload bytes (Go `[]byte`), byte values as naturals. -/
abbrev Bytes := List Nat

/-- Go `http.Header`: a map from canonical header key to the list of its
values, modelled as an association list with unique keys. -/
abbrev Header := List (String × List String)

/-- `http.Header.Get`-style lookup of the value list stored under key `k`
(first entry with that key), `none` when the key is absent. -/
def headerGetValues (h : Header) (k : String) : Option (List String) :=
  match h with
  | [] => none
  | kv :: rest => if kv.1 == k then some kv.2 else headerGetValues rest k

/-- Go `http.Header.Get`: the first value stored under `k`, or `""`. -/
def headerGet (h : Header) (k : String) : String :=
  match headerGetValues h k with
  | some (v :: _) => v
  | _ => ""

/-- Go `http.Header.Set`: replace the values under `k` by the single value
`v`, creating the entry if the key is absent. -/
def headerSet (h : Header) (k v : String) : Header :=
  match h with
  | [] => [(k, [v])]
  | kv :: rest => if kv.1 == k then (k, [v]) :: rest else kv :: headerSet rest k v

/-- Go `http.Header.Add`: append the value `v` to the values under `k`,
creating the entry if the key is absent. -/
def headerAdd (h : Header) (k v : String) : Header :=
  match h with
  | [] => [(k, [v])]
  | kv :: rest => if kv.1 == k then (kv.1, kv.2 ++ [v]) :: rest else kv :: headerAdd rest k v

/-- `for _, value := range values { h.Add(k, value) }`. -/
def addValues (b : Header) (k : String) (vs : List String) : Header :=
  vs.foldl (fun b' v => headerAdd b' k v) b

/-- `for k, values := range headers { for _, value := range values
{ base.Add(k, value) } }` (the header-merging loop of `Invoker.invoke`). -/
def addAll (base h : Header) : Header :=
  h.foldl (fun b kv => addValues b kv.1 kv.2) base

/-- The value lists of all entries of `h` stored under key `k`.  A header
that comes from a Go `http.Header` has at most one entry per key. -/
def keyEntries (h : Header) (k : String) : List (List String) :=
  (h.filter (fun kv => kv.1 == k)).map Prod.snd

/-- Well-formedness of an association-list header at one key: the key has no
entry, or exactly one entry with a nonempty value list.  Every value of Go
type `http.Header` built with `Set` / `Add` satisfies this at every key. -/
def keyWF (h : Header) (k : String) : Prop :=
  keyEntries h k = [] ∨ ∃ v vs, keyEntries h k = [v :: vs]

/-! ## TopicMap (src/unnamed/part_006) -/

/-- Go `type MatchTopicFunc func(topicReceived, topicFunction string) bool`. -/
def MatchTopicFunc := String → String → Bool

/-- Go `defaultMatchTopic`: exact string equality. -/
def defaultMatchTopic (topicReceived topicFunction : String) : Bool :=
  topicReceived == topicFunction

/-- Go `TopicMap`: the routing table.  `lookup` is the `*map[string][]string`
(association list, see the conventions above) and `matchFunc` is the stored
match predicate, `none` modelling a nil Go function value. -/
structure TopicMap where
  lookup : List (String × List String)
  matchFunc : Option MatchTopicFunc

/-- Go `NewTopicMap`: empty table; a nil match function is replaced by
`defaultMatchTopic`. -/
def NewTopicMap (matchFunc : Option MatchTopicFunc) : TopicMap :=
  { lookup := [],
    matchFunc := some (matchFunc.getD defaultMatchTopic) }

/-- Go `TopicMap.Match`: fold over all entries of the table, appending the
whole handler list of every key accepted by the match function (substituting
`defaultMatchTopic` when the stored function is nil).  The `values` slice
starts nil and is returned as-is, so no key matching yields `[]`. -/
def TopicMap.Match (t : TopicMap) (topicName : String) : List String :=
  let matchFunc := t.matchFunc.getD defaultMatchTopic
  t.lookup.foldl
    (fun values kv => if matchFunc topicName kv.1 then values ++ kv.2 else values) []

/-- Go `TopicMap.Sync`: replace the `lookup` pointer wholesale. -/
def TopicMap.Sync (t : TopicMap) (updated : List (String × List String)) : TopicMap :=
  { t with lookup := updated }

/-- Go `TopicMap.Topics`: collect the keys of the table in iteration order. -/
def TopicMap.Topics (t : TopicMap) : List String :=
  t.lookup.foldl (fun topics kv => topics ++ [kv.1]) []

/-! ## Helper lemmas for the TopicMap claims -/

theorem foldl_if_append_eq (p : String × List String → Bool)
    (l : List (String × List String)) (acc : List String) :
    l.foldl (fun values kv => if p kv then values ++ kv.2 else values) acc
      = acc ++ (l.filter p).flatMap Prod.snd := by
  induction l generalizing acc with
  | nil => simp
  | cons kv rest ih =>
    by_cases hp : p kv
    · simp [List.foldl_cons, hp, ih, List.filter_cons, List.append_assoc]
    · simp [List.foldl_cons, hp, ih, List.filter_cons]

theorem foldl_append_singleton_eq (l : List (String × List String)) (acc : List String) :
    l.foldl (fun topics kv => topics ++ [kv.1]) acc = acc ++ l.map Prod.fst := by
  induction l generalizing acc with
  | nil => simp
  | cons kv rest ih => simp [List.foldl_cons, ih]

/-- C1: a table populated via `Sync M` answers `Match T` with the
concatenation, in key order, of the full handler lists of every key of `M`
accepted by the active match function (the stored one, or `defaultMatchTopic`
when the stored one is nil); no deduplication happens, and when no key is
accepted the result is the empty list (the `bind` of an empty `filter`). -/
theorem claim_C1 (t : TopicMap) (M : List (String × List String)) (T : String) :
    (t.Sync M).Match T
      = (M.filter (fun kv => (t.matchFunc.getD defaultMatchTopic) T kv.1)).flatMap Prod.snd := by
  simpa [TopicMap.Sync, TopicMap.Match]
    using foldl_if_append_eq (fun kv => (t.matchFunc.getD defaultMatchTopic) T kv.1) M []

/-- C4: `Sync M` replaces the table as a unit: the stored mapping is exactly
`M`, the match function is untouched, `Topics` returns exactly the keys of
`M`, and `Match` behaves as on a table holding `M` alone — nothing of the
previous mapping survives. -/
theorem claim_C4 (t : TopicMap) (M : List (String × List String)) :
    (t.Sync M).lookup = M ∧
    (t.Sync M).matchFunc = t.matchFunc ∧
    (t.Sync M).Topics = M.map Prod.fst ∧
    ∀ T, (t.Sync M).Match T = TopicMap.Match ⟨M, t.matchFunc⟩ T := by
  refine ⟨rfl, rfl, ?_, fun T => rfl⟩
  simpa [TopicMap.Sync, TopicMap.Topics] using foldl_append_singleton_eq M []

/-- C9: a table constructed with a nil match function matches by exact
string equality: on the table `payment -> [a.fn]`, `Match "payment"`
returns `[a.fn]` and `Match "Payment"` returns the empty list. -/
theorem claim_C9 :
    ((NewTopicMap none).Sync [("payment", ["a.fn"])]).Match "payment" = ["a.fn"] ∧
    ((NewTopicMap none).Sync [("payment", ["a.fn"])]).Match "Payment" = [] := by
  constructor <;> rfl

/-! ## Invoker data model (src/unnamed/part_004 and part_005) -/

/-- The errors produced by the invoker, mirroring the `fmt.Errorf` values of
the Go code; `unableToInvoke` is the wrapping (`%w`) done by `Invoke`. -/
inductive InvokeError where
  /-- `fmt.Errorf("no message to send")` -/
  | noMessageToSend : InvokeError
  /-- the error returned by `http.NewRequest` -/
  | newRequestError : InvokeError
  /-- `fmt.Errorf("unable to reach endpoint %s, error: %w", gwURL, err)` -/
  | unableToReach (gwURL : String) : InvokeError
  /-- `fmt.Errorf("unable to read body from response %w", err)` -/
  | unableToReadBody : InvokeError
  /-- `fmt.Errorf("unable to invoke %s, error: %w", functionName, err)` -/
  | unableToInvoke (functionName : String) (cause : InvokeError) : InvokeError
  deriving DecidableEq

/-- Go `InvokerResponse` (part_004).  `Context` and `Duration` are outside
the model; the remaining fields default to their Go zero values. -/
structure InvokerResponse where
  Body : Option Bytes := none
  Header : Option Header := none
  Status : Nat := 0
  Error : Option InvokeError := none
  Topic : String := ""
  Function : String := ""
  deriving DecidableEq

/-- The outcome of reading an HTTP response body (`io.ReadAll`). -/
inductive BodyRead where
  /-- `io.ReadAll` fails partway -/
  | failure : BodyRead
  /-- the body reads fully as `bs` -/
  | bytes (bs : Bytes) : BodyRead
  deriving DecidableEq

/-- An outbound HTTP request as handed to `client.Do`. -/
structure HttpRequest where
  method : String
  url : String
  body : Bytes
  header : Header
  deriving DecidableEq

/-- An HTTP response as seen by `Invoker.invoke`: status code, header, and
the body (`none` models a nil `res.Body`). -/
structure HttpResponse where
  statusCode : Nat
  header : Header
  body : Option BodyRead
  deriving DecidableEq

/-- Result of `client.Do`. -/
inductive DoResult where
  /-- transport failure: cannot connect, timeout, cancellation -/
  | doError : DoResult
  /-- a connection succeeded and produced `resp` -/
  | ok (resp : HttpResponse) : DoResult

/-- The network oracle standing in for `http.NewRequest` and the HTTP
client: whether request construction fails for a URL, and what `client.Do`
returns for a request. -/
structure Net where
  newRequestFails : String → Bool
  responses : HttpRequest → DoResult

/-- Go `InvokerOptions` (part_005), zero values as field defaults. -/
structure InvokerOptions where
  sendTopic : Bool := false
  asyncCallbackURL : String := ""
  userAgent : String := ""

/-- Go `InvokerOptionFunc`. -/
def InvokerOptionFunc := InvokerOptions → InvokerOptions

/-- Go `WithInvokerSendTopic`. -/
def WithInvokerSendTopic (sendTopic : Bool) : InvokerOptionFunc :=
  fun opts => { opts with sendTopic := sendTopic }

/-- Go `WithInvokerAsyncCallbackURL`. -/
def WithInvokerAsyncCallbackURL (callbackURL : String) : InvokerOptionFunc :=
  fun opts => { opts with asyncCallbackURL := callbackURL }

/-- Go `WithInvokerUserAgent`. -/
def WithInvokerUserAgent (userAgent : String) : InvokerOptionFunc :=
  fun opts => { opts with userAgent := userAgent }

/-- Go `InvokeOptions` (part_005), zero values as field defaults. -/
structure InvokeOptions where
  topic : String := ""
  asyncCallbackURL : String := ""
  contentType : String := ""

/-- Go `InvokeOptionFunc`. -/
def InvokeOptionFunc := InvokeOptions → InvokeOptions

/-- Go `WithInvokeTopic`. -/
def WithInvokeTopic (topic : String) : InvokeOptionFunc :=
  fun opts => { opts with topic := topic }

/-- Go `WithInvokeAsyncCallbackURL`. -/
def WithInvokeAsyncCallbackURL (callbackURL : String) : InvokeOptionFunc :=
  fun opts => { opts with asyncCallbackURL := callbackURL }

/-- Go `WithInvokeContentType`. -/
def WithInvokeContentType (contentType : String) : InvokeOptionFunc :=
  fun opts => { opts with contentType := contentType }

/-- `o := &InvokeOptions{}; for _, optFn := range opts { optFn(o) }`. -/
def applyInvokeOpts (opts : List InvokeOptionFunc) : InvokeOptions :=
  opts.foldl (fun o f => f o) {}

/-- Go `Invoker` (part_004).  The `Client` and `Responses` fields live in
the `Net` oracle and in the modelled send lists respectively. -/
structure Invoker where
  PrintResponse : Bool := false
  PrintRequest : Bool := false
  GatewayURL : String := ""
  ContentType : String := ""
  opts : InvokerOptions := {}

/-- Go `NewInvoker` (part_004). -/
def NewInvoker (gatewayURL : String) (contentType : String)
    (printResponse printRequest : Bool) (opts : List InvokerOptionFunc) : Invoker :=
  { PrintResponse := printResponse,
    PrintRequest := printRequest,
    GatewayURL := gatewayURL,
    ContentType := contentType,
    opts := opts.foldl (fun o f => f o) {} }

/-- `http.StatusServiceUnavailable`. -/
def StatusServiceUnavailable : Nat := 503

/-- The header of a request fresh out of `http.NewRequest` after the
`X-Connector` block of `Invoker.invoke` (part_004 lines 164-166): the header
starts empty, so `Get` returns `""` and the identity value is always set. -/
def initialRequestHeader : Header :=
  let h : Header := []
  if headerGet h "X-Connector" == "" then headerSet h "X-Connector" "connector-sdk" else h

/-- Part_004 lines 87-89: `if i.opts.userAgent != "" { headers.Set("User-Agent", ...) }`. -/
def setUserAgentHeader (i : Invoker) (h : Header) : Header :=
  if i.opts.userAgent != "" then headerSet h "User-Agent" i.opts.userAgent else h

/-- Part_004 lines 91-93: `if i.opts.sendTopic { headers.Set("X-Topic", topic) }`.
Note the topic is set whenever `sendTopic` holds, even when it is empty. -/
def setXTopicHeader (i : Invoker) (o : InvokeOptions) (h : Header) : Header :=
  if i.opts.sendTopic then headerSet h "X-Topic" o.topic else h

/-- Part_004 lines 95-99: the `X-Callback-Url` block (per-call override,
else invoker default, else untouched). -/
def setCallbackHeader (i : Invoker) (o : InvokeOptions) (h : Header) : Header :=
  if o.asyncCallbackURL != "" then headerSet h "X-Callback-Url" o.asyncCallbackURL
  else if i.opts.asyncCallbackURL != "" then headerSet h "X-Callback-Url" i.opts.asyncCallbackURL
  else h

/-- Part_004 lines 101-105: the `Content-Type` block (per-call override,
else invoker default, else untouched). -/
def setContentTypeHeader (i : Invoker) (o : InvokeOptions) (h : Header) : Header :=
  if o.contentType != "" then headerSet h "Content-Type" o.contentType
  else if i.ContentType != "" then headerSet h "Content-Type" i.ContentType
  else h

/-- Header-building block of `Invoker.Invoke` (part_004 lines 87-105): the
`User-Agent`, `X-Topic`, `X-Callback-Url` and `Content-Type` `Set` calls on
the caller-supplied header map, in source order. -/
def buildHeaders (i : Invoker) (o : InvokeOptions) (headers0 : Header) : Header :=
  setContentTypeHeader i o (setCallbackHeader i o (setXTopicHeader i o (setUserAgentHeader i headers0)))

/-- The request `Invoker.invoke` hands to `client.Do`: a POST to the gateway
URL whose header is the always-set `X-Connector` entry followed by the
`Add`-merged caller headers (part_004 lines 158-180). -/
def mkRequest (gwURL : String) (reader : Bytes) (headers : Header) : HttpRequest :=
  { method := "POST", url := gwURL, body := reader,
    header := addAll initialRequestHeader headers }

/-- Go `Invoker.invoke` (part_004 lines 158-199).  Returns the quadruple
`(body, statusCode, header, err)` of the Go function together with the list
of requests handed to `client.Do` (empty when `http.NewRequest` fails). -/
def Invoker.invoke (_i : Invoker) (net : Net) (gwURL : String) (reader : Bytes)
    (headers : Header) :
    (Option Bytes × Nat × Option Header × Option InvokeError) × List HttpRequest :=
  if net.newRequestFails gwURL then
    ((none, StatusServiceUnavailable, none, some .newRequestError), [])
  else
    let req := mkRequest gwURL reader headers
    match net.responses req with
    | .doError => ((none, StatusServiceUnavailable, none, some (.unableToReach gwURL)), [req])
    | .ok resp =>
      match resp.body with
      | none => ((none, resp.statusCode, some resp.header, none), [req])
      | some .failure => ((none, StatusServiceUnavailable, none, some .unableToReadBody), [req])
      | some (.bytes bs) => ((some bs, resp.statusCode, some resp.header, none), [req])

/-- What one call to `Invoker.Invoke` does: the response it returns, the
responses it sends on the `Responses` channel, and the requests it hands to
`client.Do`. -/
structure InvokeOutcome where
  response : InvokerResponse
  published : List InvokerResponse
  calls : List HttpRequest
  deriving DecidableEq

/-- Go `Invoker.Invoke` (part_004 lines 61-132).  `none` models the runtime
panic that `log.Printf(..., string(*message))` raises when `PrintRequest` is
set and `message` is nil; there is no payload validation in this function. -/
def Invoker.Invoke (i : Invoker) (net : Net) (functionName : String)
    (message : Option Bytes) (headers : Option Header)
    (opts : List InvokeOptionFunc) : Option InvokeOutcome :=
  let o := applyInvokeOpts opts
  let gwURL := i.GatewayURL ++ "/" ++ functionName
  let reader := message.getD []
  let topic := o.topic
  if i.PrintRequest && message.isNone then
    none
  else
    let headers0 := headers.getD []
    let hs := buildHeaders i o headers0
    match i.invoke net gwURL reader hs with
    | ((_, statusCode, _, some err), calls) =>
      let invokerResponse : InvokerResponse :=
        { Status := statusCode,
          Error := some (.unableToInvoke functionName err),
          Function := functionName }
      some ⟨invokerResponse, [invokerResponse], calls⟩
    | ((body, statusCode, header, none), calls) =>
      let invokerResponse : InvokerResponse :=
        { Body := body,
          Status := statusCode,
          Header := header,
          Function := functionName,
          Topic := topic }
      some ⟨invokerResponse, [invokerResponse], calls⟩

/-- Go `Invoker.InvokeWithTopic` (part_004 lines 135-156).  Returns the
responses sent on the channel and the requests handed to `client.Do`;
`none` models the nil-pointer panic of `len(*message)` on a nil message. -/
def Invoker.InvokeWithTopic (i : Invoker) (net : Net) (topicMap : Option TopicMap)
    (topic : String) (message : Option Bytes) (headers : Option Header)
    (opts : List InvokeOptionFunc) : Option (List InvokerResponse × List HttpRequest) :=
  match message with
  | none => none
  | some msg =>
    if msg.length == 0 || topicMap.isNone then
      some ([{ Error := some .noMessageToSend }], [])
    else
      match topicMap with
      | none => none
      | some tm =>
        let _o := applyInvokeOpts opts
        let opts' := opts ++ [WithInvokeTopic topic]
        let matchedFunctions := tm.Match topic
        matchedFunctions.foldl
          (fun acc matchedFunction =>
            match acc with
            | none => none
            | some (pub, calls) =>
              match i.Invoke net matchedFunction message headers opts' with
              | none => none
              | some out => some (pub ++ out.published, calls ++ out.calls))
          (some ([], []))

/-! ## Header lemmas -/

theorem headerGetValues_set_self (h : Header) (k v : String) :
    headerGetValues (headerSet h k v) k = some [v] := by
  induction h with
  | nil => simp [headerSet, headerGetValues]
  | cons kv rest ih =>
    by_cases hk : kv.1 == k
    · simp [headerSet, hk, headerGetValues]
    · simp [headerSet, hk, headerGetValues, ih]

theorem headerGetValues_set_ne (h : Header) (k v k' : String) (hne : k ≠ k') :
    headerGetValues (headerSet h k v) k' = headerGetValues h k' := by
  induction h with
  | nil => simp [headerSet, headerGetValues, hne]
  | cons kv rest ih =>
    by_cases hk : kv.1 == k
    · have hkv : kv.1 = k := by simpa using hk
      simp [headerSet, hk, headerGetValues, hne, hkv]
    · simp [headerSet, hk, headerGetValues, ih]

theorem headerGetValues_add_self (h : Header) (k v : String) :
    headerGetValues (headerAdd h k v) k
      = some ((headerGetValues h k).getD [] ++ [v]) := by
  induction h with
  | nil => simp [headerAdd, headerGetValues]
  | cons kv rest ih =>
    by_cases hk : kv.1 == k
    · simp [headerAdd, hk, headerGetValues]
    · simp [headerAdd, hk, headerGetValues, ih]

theorem headerGetValues_add_ne (h : Header) (k v k' : String) (hne : k ≠ k') :
    headerGetValues (headerAdd h k v) k' = headerGetValues h k' := by
  induction h with
  | nil => simp [headerAdd, headerGetValues, hne]
  | cons kv rest ih =>
    by_cases hk : kv.1 == k
    · have hkv : kv.1 = k := by simpa using hk
      simp [headerAdd, hk, headerGetValues, hne, hkv]
    · simp [headerAdd, hk, headerGetValues, ih]

theorem addValues_getValues_ne (vs : List String) (b : Header) (k k' : String)
    (hne : k ≠ k') :
    headerGetValues (addValues b k vs) k' = headerGetValues b k' := by
  induction vs generalizing b with
  | nil => simp [addValues]
  | cons v rest ih =>
    simpa [addValues, List.foldl_cons]
      using (ih (headerAdd b k v)).trans (headerGetValues_add_ne b k v k' hne)

theorem addValues_getValues_some (vs : List String) (b : Header) (k : String)
    (ws : List String) (hb : headerGetValues b k = some ws) :
    headerGetValues (addValues b k vs) k = some (ws ++ vs) := by
  induction vs generalizing b ws with
  | nil => simpa [addValues] using hb
  | cons v rest ih =>
    have hadd : headerGetValues (headerAdd b k v) k = some (ws ++ [v]) := by
      simpa [hb] using headerGetValues_add_self b k v
    simpa [addValues, List.foldl_cons] using ih (headerAdd b k v) (ws ++ [v]) hadd

theorem addValues_getValues_none_cons (v : String) (vs : List String) (b : Header)
    (k : String) (hb : headerGetValues b k = none) :
    headerGetValues (addValues b k (v :: vs)) k = some (v :: vs) := by
  have hadd : headerGetValues (headerAdd b k v) k = some [v] := by
    simpa [hb] using headerGetValues_add_self b k v
  simpa [addValues, List.foldl_cons] using addValues_getValues_some vs (headerAdd b k v) k [v] hadd

theorem keyEntries_nil_getValues (h : Header) (k : String)
    (hk : keyEntries h k = []) : headerGetValues h k = none := by
  induction h with
  | nil => simp [headerGetValues]
  | cons kv rest ih =>
    by_cases hkv : kv.1 == k
    · simp [keyEntries, List.filter_cons, hkv] at hk
    · simp only [keyEntries, List.filter_cons, hkv] at hk
      simp [headerGetValues, hkv, ih hk]

theorem keyEntries_single_getValues (h : Header) (k : String) (w : List String)
    (hk : keyEntries h k = [w]) : headerGetValues h k = some w := by
  induction h with
  | nil => simp [keyEntries] at hk
  | cons kv rest ih =>
    by_cases hkv : kv.1 == k
    · simp only [keyEntries, List.filter_cons, hkv, if_pos, List.map_cons] at hk
      have h1 : kv.2 = w := (List.cons_eq_cons.mp hk).1
      simp [headerGetValues, hkv, h1]
    · simp only [keyEntries, List.filter_cons, hkv] at hk
      simp [headerGetValues, hkv, ih hk]

theorem addAll_getValues_of_keyEntries_nil (h : Header) (b : Header) (k : String)
    (hk : keyEntries h k = []) :
    headerGetValues (addAll b h) k = headerGetValues b k := by
  induction h generalizing b with
  | nil => simp [addAll]
  | cons kv rest ih =>
    by_cases hkv : kv.1 == k
    · simp [keyEntries, List.filter_cons, hkv] at hk
    · simp only [keyEntries, List.filter_cons, hkv] at hk
      have hne : kv.1 ≠ k := by simpa using hkv
      have step : headerGetValues (addValues b kv.1 kv.2) k = headerGetValues b k :=
        addValues_getValues_ne kv.2 b kv.1 k hne
      simpa [addAll, List.foldl_cons] using (ih (addValues b kv.1 kv.2) hk).trans step

theorem addAll_getValues_of_keyEntries_single (h : Header) (b : Header) (k : String)
    (v : String) (vs : List String) (hb : headerGetValues b k = none)
    (hk : keyEntries h k = [v :: vs]) :
    headerGetValues (addAll b h) k = some (v :: vs) := by
  induction h generalizing b with
  | nil => simp [keyEntries] at hk
  | cons kv rest ih =>
    by_cases hkv : kv.1 == k
    · have hkv' : kv.1 = k := by simpa using hkv
      simp only [keyEntries, List.filter_cons, hkv, if_pos, List.map_cons] at hk
      obtain ⟨h1, h2⟩ := List.cons_eq_cons.mp hk
      have hstep : headerGetValues (addValues b kv.1 kv.2) k = some (v :: vs) := by
        rw [hkv', h1]
        exact addValues_getValues_none_cons v vs b k hb
      have hrest : keyEntries rest k = [] := by
        simpa [keyEntries] using h2
      simpa [addAll, List.foldl_cons]
        using (addAll_getValues_of_keyEntries_nil rest (addValues b kv.1 kv.2) k hrest).trans hstep
    · simp only [keyEntries, List.filter_cons, hkv] at hk
      have hne : kv.1 ≠ k := by simpa using hkv
      have hb' : headerGetValues (addValues b kv.1 kv.2) k = none :=
        (addValues_getValues_ne kv.2 b kv.1 k hne).trans hb
      simpa [addAll, List.foldl_cons] using ih (addValues b kv.1 kv.2) hb' hk

theorem keyEntries_set_ne (h : Header) (k v k' : String) (hne : k ≠ k') :
    keyEntries (headerSet h k v) k' = keyEntries h k' := by
  induction h with
  | nil =>
    have : (k == k') = false := by simpa using hne
    simp [headerSet, keyEntries, List.filter_cons, this]
  | cons kv rest ih =>
    by_cases hk : kv.1 == k
    · have hkv : kv.1 = k := by simpa using hk
      have h1 : (k == k') = false := by simpa using hne
      simp [headerSet, hk, keyEntries, List.filter_cons, h1, hkv]
    · by_cases hk' : kv.1 == k'
      · simpa [headerSet, hk, keyEntries, List.filter_cons, hk'] using ih
      · simpa [headerSet, hk, keyEntries, List.filter_cons, hk'] using ih

theorem keyEntries_set_self (h : Header) (k v : String) (hwf : keyWF h k) :
    keyEntries (headerSet h k v) k = [[v]] := by
  induction h with
  | nil => simp [headerSet, keyEntries, List.filter_cons]
  | cons kv rest ih =>
    by_cases hk : kv.1 == k
    · have hrest : keyEntries rest k = [] := by
        rcases hwf with hwf | ⟨w, ws, hwf⟩
        · simp [keyEntries, List.filter_cons, hk] at hwf
        · simp only [keyEntries, List.filter_cons, hk, if_pos, List.map_cons] at hwf
          simpa [keyEntries] using (List.cons_eq_cons.mp hwf).2
      have hstep : keyEntries (headerSet (kv :: rest) k v) k = [v] :: keyEntries rest k := by
        simp [headerSet, hk, keyEntries, List.filter_cons]
      rw [hstep, hrest]
    · have hwf' : keyWF rest k := by
        rcases hwf with hwf | ⟨w, ws, hwf⟩
        · simp only [keyEntries, List.filter_cons, hk] at hwf
          exact Or.inl hwf
        · simp only [keyEntries, List.filter_cons, hk] at hwf
          exact Or.inr ⟨w, ws, hwf⟩
      simpa [headerSet, hk, keyEntries, List.filter_cons] using ih hwf'

theorem keyWF_of_keyEntries_eq (h h' : Header) (k : String)
    (heq : keyEntries h k = keyEntries h' k) (hwf : keyWF h' k) : keyWF h k := by
  rcases hwf with hwf | ⟨v, vs, hwf⟩
  · exact Or.inl (heq.trans hwf)
  · exact Or.inr ⟨v, vs, heq.trans hwf⟩

/-! ## Key-tracking through the header pipeline -/

theorem keyEntries_setUserAgentHeader (i : Invoker) (h : Header) (k : String)
    (hne : "User-Agent" ≠ k) :
    keyEntries (setUserAgentHeader i h) k = keyEntries h k := by
  unfold setUserAgentHeader
  split
  · exact keyEntries_set_ne h "User-Agent" i.opts.userAgent k hne
  · rfl

theorem keyEntries_setXTopicHeader_ne (i : Invoker) (o : InvokeOptions) (h : Header)
    (k : String) (hne : "X-Topic" ≠ k) :
    keyEntries (setXTopicHeader i o h) k = keyEntries h k := by
  unfold setXTopicHeader
  split
  · exact keyEntries_set_ne h "X-Topic" o.topic k hne
  · rfl

theorem keyEntries_setXTopicHeader_self (i : Invoker) (o : InvokeOptions) (h : Header)
    (hwf : keyWF h "X-Topic") :
    keyEntries (setXTopicHeader i o h) "X-Topic"
      = if i.opts.sendTopic then [[o.topic]] else keyEntries h "X-Topic" := by
  unfold setXTopicHeader
  by_cases hst : i.opts.sendTopic
  · simp [hst, keyEntries_set_self h "X-Topic" o.topic hwf]
  · simp [hst]

theorem keyEntries_setCallbackHeader_ne (i : Invoker) (o : InvokeOptions) (h : Header)
    (k : String) (hne : "X-Callback-Url" ≠ k) :
    keyEntries (setCallbackHeader i o h) k = keyEntries h k := by
  unfold setCallbackHeader
  split
  · exact keyEntries_set_ne h "X-Callback-Url" o.asyncCallbackURL k hne
  · split
    · exact keyEntries_set_ne h "X-Callback-Url" i.opts.asyncCallbackURL k hne
    · rfl

theorem keyEntries_setCallbackHeader_self (i : Invoker) (o : InvokeOptions) (h : Header)
    (hwf : keyWF h "X-Callback-Url") :
    keyEntries (setCallbackHeader i o h) "X-Callback-Url"
      = if o.asyncCallbackURL != "" then [[o.asyncCallbackURL]]
        else if i.opts.asyncCallbackURL != "" then [[i.opts.asyncCallbackURL]]
        else keyEntries h "X-Callback-Url" := by
  unfold setCallbackHeader
  by_cases h1 : o.asyncCallbackURL != ""
  · simp [h1, keyEntries_set_self h "X-Callback-Url" o.asyncCallbackURL hwf]
  · by_cases h2 : i.opts.asyncCallbackURL != ""
    · simp [h1, h2, keyEntries_set_self h "X-Callback-Url" i.opts.asyncCallbackURL hwf]
    · simp [h1, h2]

theorem keyEntries_setContentTypeHeader_ne (i : Invoker) (o : InvokeOptions) (h : Header)
    (k : String) (hne : "Content-Type" ≠ k) :
    keyEntries (setContentTypeHeader i o h) k = keyEntries h k := by
  unfold setContentTypeHeader
  split
  · exact keyEntries_set_ne h "Content-Type" o.contentType k hne
  · split
    · exact keyEntries_set_ne h "Content-Type" i.ContentType k hne
    · rfl

theorem keyEntries_setContentTypeHeader_self (i : Invoker) (o : InvokeOptions) (h : Header)
    (hwf : keyWF h "Content-Type") :
    keyEntries (setContentTypeHeader i o h) "Content-Type"
      = if o.contentType != "" then [[o.contentType]]
        else if i.ContentType != "" then [[i.ContentType]]
        else keyEntries h "Content-Type" := by
  unfold setContentTypeHeader
  by_cases h1 : o.contentType != ""
  · simp [h1, keyEntries_set_self h "Content-Type" o.contentType hwf]
  · by_cases h2 : i.ContentType != ""
    · simp [h1, h2, keyEntries_set_self h "Content-Type" i.ContentType hwf]
    · simp [h1, h2]

theorem getValues_addAll_of_entries_pass (hs h0 b : Header) (k : String)
    (hbase : headerGetValues b k = none)
    (hk : keyEntries hs k = keyEntries h0 k) (hwf : keyWF h0 k) :
    headerGetValues (addAll b hs) k = headerGetValues h0 k := by
  rcases hwf with hnil | ⟨v, vs, hsingle⟩
  · rw [addAll_getValues_of_keyEntries_nil hs b k (hk.trans hnil), hbase,
      keyEntries_nil_getValues h0 k hnil]
  · rw [addAll_getValues_of_keyEntries_single hs b k v vs hbase (hk.trans hsingle),
      keyEntries_single_getValues h0 k (v :: vs) hsingle]

theorem getValues_outbound_xtopic (i : Invoker) (o : InvokeOptions) (h0 : Header)
    (hwf : keyWF h0 "X-Topic") :
    headerGetValues (addAll initialRequestHeader (buildHeaders i o h0)) "X-Topic"
      = if i.opts.sendTopic then some [o.topic] else headerGetValues h0 "X-Topic" := by
  have hbase : headerGetValues initialRequestHeader "X-Topic" = none := rfl
  have hua : keyEntries (setUserAgentHeader i h0) "X-Topic" = keyEntries h0 "X-Topic" :=
    keyEntries_setUserAgentHeader i h0 "X-Topic" (by decide)
  have hwf1 : keyWF (setUserAgentHeader i h0) "X-Topic" :=
    keyWF_of_keyEntries_eq _ h0 _ hua hwf
  have hk : keyEntries (buildHeaders i o h0) "X-Topic"
      = if i.opts.sendTopic then [[o.topic]] else keyEntries h0 "X-Topic" := by
    unfold buildHeaders
    rw [keyEntries_setContentTypeHeader_ne i o _ "X-Topic" (by decide),
      keyEntries_setCallbackHeader_ne i o _ "X-Topic" (by decide),
      keyEntries_setXTopicHeader_self i o _ hwf1, hua]
  by_cases hst : i.opts.sendTopic
  · have hk' : keyEntries (buildHeaders i o h0) "X-Topic" = [[o.topic]] := by
      rw [hk]; simp [hst]
    rw [addAll_getValues_of_keyEntries_single _ _ _ o.topic [] hbase hk']
    simp [hst]
  · have hk' : keyEntries (buildHeaders i o h0) "X-Topic" = keyEntries h0 "X-Topic" := by
      rw [hk]; simp [hst]
    rw [getValues_addAll_of_entries_pass _ h0 _ _ hbase hk' hwf]
    simp [hst]

theorem getValues_outbound_contentType (i : Invoker) (o : InvokeOptions) (h0 : Header)
    (hwf : keyWF h0 "Content-Type") :
    headerGetValues (addAll initialRequestHeader (buildHeaders i o h0)) "Content-Type"
      = if o.contentType != "" then some [o.contentType]
        else if i.ContentType != "" then some [i.ContentType]
        else headerGetValues h0 "Content-Type" := by
  have hbase : headerGetValues initialRequestHeader "Content-Type" = none := rfl
  have hinner : keyEntries (setCallbackHeader i o (setXTopicHeader i o (setUserAgentHeader i h0)))
      "Content-Type" = keyEntries h0 "Content-Type" := by
    rw [keyEntries_setCallbackHeader_ne i o _ "Content-Type" (by decide),
      keyEntries_setXTopicHeader_ne i o _ "Content-Type" (by decide),
      keyEntries_setUserAgentHeader i h0 "Content-Type" (by decide)]
  have hwf1 : keyWF (setCallbackHeader i o (setXTopicHeader i o (setUserAgentHeader i h0)))
      "Content-Type" := keyWF_of_keyEntries_eq _ h0 _ hinner hwf
  have hk : keyEntries (buildHeaders i o h0) "Content-Type"
      = if o.contentType != "" then [[o.contentType]]
        else if i.ContentType != "" then [[i.ContentType]]
        else keyEntries h0 "Content-Type" := by
    unfold buildHeaders
    rw [keyEntries_setContentTypeHeader_self i o _ hwf1, hinner]
  by_cases h1 : o.contentType != ""
  · have hk' : keyEntries (buildHeaders i o h0) "Content-Type" = [[o.contentType]] := by
      rw [hk]; simp [h1]
    rw [addAll_getValues_of_keyEntries_single _ _ _ o.contentType [] hbase hk']
    simp [h1]
  · by_cases h2 : i.ContentType != ""
    · have hk' : keyEntries (buildHeaders i o h0) "Content-Type" = [[i.ContentType]] := by
        rw [hk]; simp [h1, h2]
      rw [addAll_getValues_of_keyEntries_single _ _ _ i.ContentType [] hbase hk']
      simp [h1, h2]
    · have hk' : keyEntries (buildHeaders i o h0) "Content-Type"
          = keyEntries h0 "Content-Type" := by
        rw [hk]; simp [h1, h2]
      rw [getValues_addAll_of_entries_pass _ h0 _ _ hbase hk' hwf]
      simp [h1, h2]

theorem getValues_outbound_callback (i : Invoker) (o : InvokeOptions) (h0 : Header)
    (hwf : keyWF h0 "X-Callback-Url") :
    headerGetValues (addAll initialRequestHeader (buildHeaders i o h0)) "X-Callback-Url"
      = if o.asyncCallbackURL != "" then some [o.asyncCallbackURL]
        else if i.opts.asyncCallbackURL != "" then some [i.opts.asyncCallbackURL]
        else headerGetValues h0 "X-Callback-Url" := by
  have hbase : headerGetValues initialRequestHeader "X-Callback-Url" = none := rfl
  have hinner : keyEntries (setXTopicHeader i o (setUserAgentHeader i h0))
      "X-Callback-Url" = keyEntries h0 "X-Callback-Url" := by
    rw [keyEntries_setXTopicHeader_ne i o _ "X-Callback-Url" (by decide),
      keyEntries_setUserAgentHeader i h0 "X-Callback-Url" (by decide)]
  have hwf1 : keyWF (setXTopicHeader i o (setUserAgentHeader i h0)) "X-Callback-Url" :=
    keyWF_of_keyEntries_eq _ h0 _ hinner hwf
  have hk : keyEntries (buildHeaders i o h0) "X-Callback-Url"
      = if o.asyncCallbackURL != "" then [[o.asyncCallbackURL]]
        else if i.opts.asyncCallbackURL != "" then [[i.opts.asyncCallbackURL]]
        else keyEntries h0 "X-Callback-Url" := by
    unfold buildHeaders
    rw [keyEntries_setContentTypeHeader_ne i o _ "X-Callback-Url" (by decide),
      keyEntries_setCallbackHeader_self i o _ hwf1, hinner]
  by_cases h1 : o.asyncCallbackURL != ""
  · have hk' : keyEntries (buildHeaders i o h0) "X-Callback-Url" = [[o.asyncCallbackURL]] := by
      rw [hk]; simp [h1]
    rw [addAll_getValues_of_keyEntries_single _ _ _ o.asyncCallbackURL [] hbase hk']
    simp [h1]
  · by_cases h2 : i.opts.asyncCallbackURL != ""
    · have hk' : keyEntries (buildHeaders i o h0) "X-Callback-Url"
          = [[i.opts.asyncCallbackURL]] := by
        rw [hk]; simp [h1, h2]
      rw [addAll_getValues_of_keyEntries_single _ _ _ i.opts.asyncCallbackURL [] hbase hk']
      simp [h1, h2]
    · have hk' : keyEntries (buildHeaders i o h0) "X-Callback-Url"
          = keyEntries h0 "X-Callback-Url" := by
        rw [hk]; simp [h1, h2]
      rw [getValues_addAll_of_entries_pass _ h0 _ _ hbase hk' hwf]
      simp [h1, h2]

/-! ## Characterising one Invoke call -/

/-- The request one `Invoke` call hands to `client.Do` (when `http.NewRequest`
does not fail). -/
def outboundRequest (i : Invoker) (fn : String) (msg : Option Bytes)
    (hdrs : Option Header) (opts : List InvokeOptionFunc) : HttpRequest :=
  mkRequest (i.GatewayURL ++ "/" ++ fn) (msg.getD [])
    (buildHeaders i (applyInvokeOpts opts) (hdrs.getD []))

theorem invoke_eq_doError (i : Invoker) (net : Net) (gwURL : String) (reader : Bytes)
    (hs : Header) (hnr : net.newRequestFails gwURL = false)
    (hdo : net.responses (mkRequest gwURL reader hs) = .doError) :
    i.invoke net gwURL reader hs
      = ((none, StatusServiceUnavailable, none, some (.unableToReach gwURL)),
         [mkRequest gwURL reader hs]) := by
  unfold Invoker.invoke
  simp [hnr, hdo]

theorem invoke_eq_ok (i : Invoker) (net : Net) (gwURL : String) (reader : Bytes)
    (hs : Header) (resp : HttpResponse) (hnr : net.newRequestFails gwURL = false)
    (hdo : net.responses (mkRequest gwURL reader hs) = .ok resp) :
    i.invoke net gwURL reader hs
      = ((match resp.body with
          | none => (none, resp.statusCode, some resp.header, none)
          | some .failure => (none, StatusServiceUnavailable, none, some .unableToReadBody)
          | some (.bytes bs) => (some bs, resp.statusCode, some resp.header, none)),
         [mkRequest gwURL reader hs]) := by
  unfold Invoker.invoke
  cases hb : resp.body with
  | none => simp [hnr, hdo, hb]
  | some br => cases br with
    | failure => simp [hnr, hdo, hb]
    | bytes bs => simp [hnr, hdo, hb]

theorem invoke_calls (i : Invoker) (net : Net) (gwURL : String) (reader : Bytes)
    (hs : Header) :
    (i.invoke net gwURL reader hs).2 = [] ∨
    (i.invoke net gwURL reader hs).2 = [mkRequest gwURL reader hs] := by
  unfold Invoker.invoke
  split
  · exact Or.inl rfl
  · cases hdo : net.responses (mkRequest gwURL reader hs) with
    | doError => simp [hdo]
    | ok resp =>
      cases hb : resp.body with
      | none => simp [hdo, hb]
      | some br => cases br with
        | failure => simp [hdo, hb]
        | bytes bs => simp [hdo, hb]

theorem Invoke_calls_subset (i : Invoker) (net : Net) (fn : String) (msg : Option Bytes)
    (hdrs : Option Header) (opts : List InvokeOptionFunc) (out : InvokeOutcome)
    (hout : i.Invoke net fn msg hdrs opts = some out) :
    out.calls = (i.invoke net (i.GatewayURL ++ "/" ++ fn) (msg.getD [])
      (buildHeaders i (applyInvokeOpts opts) (hdrs.getD []))).2 := by
  simp only [Invoker.Invoke] at hout
  split at hout
  · exact absurd hout (by simp)
  · split at hout <;>
    · rename_i heq
      obtain rfl := Option.some.inj hout
      rw [heq]

theorem Invoke_response_eq (i : Invoker) (net : Net) (fn : String) (msg : Option Bytes)
    (hdrs : Option Header) (opts : List InvokeOptionFunc) (out : InvokeOutcome)
    (hout : i.Invoke net fn msg hdrs opts = some out) :
    out.response =
      (match (i.invoke net (i.GatewayURL ++ "/" ++ fn) (msg.getD [])
          (buildHeaders i (applyInvokeOpts opts) (hdrs.getD []))).1 with
       | (_, statusCode, _, some err) =>
         { Status := statusCode, Error := some (.unableToInvoke fn err), Function := fn }
       | (body, statusCode, header, none) =>
         { Body := body, Status := statusCode, Header := header, Function := fn,
           Topic := (applyInvokeOpts opts).topic }) := by
  simp only [Invoker.Invoke] at hout
  split at hout
  · exact absurd hout (by simp)
  · split at hout <;>
    · rename_i heq
      obtain rfl := Option.some.inj hout
      rw [heq]

theorem Invoke_req_eq (i : Invoker) (net : Net) (fn : String) (msg : Option Bytes)
    (hdrs : Option Header) (opts : List InvokeOptionFunc) (out : InvokeOutcome)
    (hout : i.Invoke net fn msg hdrs opts = some out) :
    ∀ req ∈ out.calls, req = outboundRequest i fn msg hdrs opts := by
  intro req hreq
  rw [Invoke_calls_subset i net fn msg hdrs opts out hout] at hreq
  rcases invoke_calls i net (i.GatewayURL ++ "/" ++ fn) (msg.getD [])
      (buildHeaders i (applyInvokeOpts opts) (hdrs.getD [])) with h | h
  · rw [h] at hreq
    cases hreq
  · rw [h] at hreq
    simpa [outboundRequest] using hreq

/-! ## Concrete instances used by evaluation theorems and witnesses -/

/-- An invoker with all fields at their Go zero values. -/
def invDefault : Invoker := {}

/-- An invoker configured with `WithInvokerSendTopic(true)` only. -/
def invSendTopic : Invoker := { opts := { sendTopic := true } }

/-- An invoker with a default content type and a default async-callback URL. -/
def invC7Example : Invoker :=
  { ContentType := "text/html", opts := { asyncCallbackURL := "http://default-cb" } }

/-- A network on which every request succeeds with `200` and an empty body. -/
def netAlwaysOk : Net :=
  { newRequestFails := fun _ => false,
    responses := fun _ => .ok { statusCode := 200, header := [], body := some (.bytes []) } }

/-- A network on which `client.Do` always fails (unreachable host). -/
def netAlwaysDown : Net :=
  { newRequestFails := fun _ => false, responses := fun _ => .doError }

/-! ## Claims about the Invoker -/

/-- C2: for one `Invoke` call on a handler (`http.NewRequest` succeeding):
on transport failure the result has the synthetic 503 status, an error
wrapping the unreachable-endpoint cause, and no body; on a read failure the
result likewise has 503, a wrapping error and no body; and whenever the
connection succeeds and the body is absent or reads fully, the result
carries the server's real status code with a nil error. -/
theorem claim_C2 (i : Invoker) (net : Net) (fn : String) (msg : Option Bytes)
    (hdrs : Option Header) (opts : List InvokeOptionFunc) (out : InvokeOutcome)
    (hout : i.Invoke net fn msg hdrs opts = some out)
    (hnr : net.newRequestFails (i.GatewayURL ++ "/" ++ fn) = false) :
    (net.responses (outboundRequest i fn msg hdrs opts) = .doError →
      out.response.Status = StatusServiceUnavailable ∧
      out.response.Error
        = some (.unableToInvoke fn (.unableToReach (i.GatewayURL ++ "/" ++ fn))) ∧
      out.response.Body = none) ∧
    (∀ resp, net.responses (outboundRequest i fn msg hdrs opts) = .ok resp →
      (resp.body = some .failure →
        out.response.Status = StatusServiceUnavailable ∧
        out.response.Error = some (.unableToInvoke fn .unableToReadBody) ∧
        out.response.Body = none) ∧
      (resp.body = none →
        out.response.Status = resp.statusCode ∧ out.response.Error = none) ∧
      (∀ bs, resp.body = some (.bytes bs) →
        out.response.Status = resp.statusCode ∧ out.response.Error = none ∧
        out.response.Body = some bs)) := by
  have hresp := Invoke_response_eq i net fn msg hdrs opts out hout
  constructor
  · intro hdo
    rw [invoke_eq_doError i net (i.GatewayURL ++ "/" ++ fn) (msg.getD [])
        (buildHeaders i (applyInvokeOpts opts) (hdrs.getD [])) hnr
        (by simpa [outboundRequest] using hdo)] at hresp
    refine ⟨?_, ?_, ?_⟩ <;> simp [hresp]
  · intro resp hdo
    rw [invoke_eq_ok i net (i.GatewayURL ++ "/" ++ fn) (msg.getD [])
        (buildHeaders i (applyInvokeOpts opts) (hdrs.getD [])) resp hnr
        (by simpa [outboundRequest] using hdo)] at hresp
    refine ⟨?_, ?_, ?_⟩
    · intro hb
      rw [hb] at hresp
      refine ⟨?_, ?_, ?_⟩ <;> simp [hresp]
    · intro hb
      rw [hb] at hresp
      refine ⟨?_, ?_⟩ <;> simp [hresp]
    · intro bs hb
      rw [hb] at hresp
      refine ⟨?_, ?_, ?_⟩ <;> simp [hresp]

/-- The response of `invDefault.Invoke netAlwaysDown "f" (some [1]) none []`. -/
def respDownExample : InvokerResponse :=
  { Status := StatusServiceUnavailable,
    Error := some (.unableToInvoke "f" (.unableToReach "/f")), Function := "f" }

/-- The outcome of `invDefault.Invoke netAlwaysDown "f" (some [1]) none []`. -/
def outDownExample : InvokeOutcome :=
  { response := respDownExample, published := [respDownExample],
    calls := [{ method := "POST", url := "/f", body := [1],
                header := [("X-Connector", ["connector-sdk"])] }] }

/-- C2 witness: on a concrete invoker and a network where `client.Do`
always fails, the result of an `Invoke` call has status 503, the wrapping
error, and no body. -/
theorem claim_C2_witness :
    outDownExample.response.Status = StatusServiceUnavailable ∧
    outDownExample.response.Error
      = some (InvokeError.unableToInvoke "f" (InvokeError.unableToReach "/f")) ∧
    outDownExample.response.Body = none :=
  (claim_C2 invDefault netAlwaysDown "f" (some [1]) none [] outDownExample (by rfl) rfl).1 rfl

/-- C3: evaluation at the failing input of the repository's own test
(`Test_Invoke`, case "no message": an empty payload).  `Invoke` performs no
payload validation: it issues one HTTP request (`calls.length = 1`) and
returns the transport outcome (here a 200 with nil error) instead of the
single "no message to send" error response that both the claim and the
test expect, with no network call. -/
theorem claim_C3 :
    (invDefault.Invoke netAlwaysOk "test-function" (some []) (some []) []).map
        (fun out => (out.calls.length, out.response.Error, out.response.Status))
      = some (1, none, 200) := by
  rfl

/-- C5: what actually holds for the `X-Topic` header: it is set to the
effective topic (which may be empty) exactly when topic-forwarding is
enabled; with forwarding disabled the outbound request keeps whatever
`X-Topic` values the caller supplied (absent if none).  `keyWF` states the
well-formedness every real `http.Header` has at a key. -/
theorem claim_C5 (i : Invoker) (net : Net) (fn : String) (msg : Option Bytes)
    (hdrs : Option Header) (opts : List InvokeOptionFunc) (out : InvokeOutcome)
    (hwf : keyWF (hdrs.getD []) "X-Topic")
    (hout : i.Invoke net fn msg hdrs opts = some out) :
    ∀ req ∈ out.calls,
      headerGetValues req.header "X-Topic"
        = if i.opts.sendTopic then some [(applyInvokeOpts opts).topic]
          else headerGetValues (hdrs.getD []) "X-Topic" := by
  intro req hreq
  rw [Invoke_req_eq i net fn msg hdrs opts out hout req hreq]
  exact getValues_outbound_xtopic i (applyInvokeOpts opts) (hdrs.getD []) hwf

/-- C5 counterexample: with topic-forwarding enabled and no topic present
(no per-call topic option, so the effective topic is the empty string), the
outbound request carries an `X-Topic` header (with the empty value) — the
claim says the header should be absent when no topic is present. -/
theorem claim_C5_counterexample :
    (invSendTopic.Invoke netAlwaysOk "f" (some [1]) none []).map
        (fun out => out.calls.map (fun r => headerGetValues r.header "X-Topic"))
      = some [some [""]] := by
  rfl

/-- The request issued by
`invSendTopic.Invoke netAlwaysOk "f" (some [1]) none [WithInvokeTopic "orders"]`. -/
def reqTopicExample : HttpRequest :=
  { method := "POST", url := "/f", body := [1],
    header := [("X-Connector", ["connector-sdk"]), ("X-Topic", ["orders"])] }

/-- The response of that call. -/
def respTopicExample : InvokerResponse :=
  { Body := some [], Status := 200, Header := some [], Function := "f", Topic := "orders" }

/-- The outcome of that call. -/
def outTopicExample : InvokeOutcome :=
  { response := respTopicExample, published := [respTopicExample], calls := [reqTopicExample] }

/-- C5 witness: with forwarding enabled and per-call topic `orders`, the
outbound request carries `X-Topic: orders`. -/
theorem claim_C5_witness :
    headerGetValues reqTopicExample.header "X-Topic" = some ["orders"] := by
  have h := claim_C5 invSendTopic netAlwaysOk "f" (some [1]) none [WithInvokeTopic "orders"]
      outTopicExample (Or.inl rfl) (by rfl) reqTopicExample (by simp [outTopicExample])
  simpa [invSendTopic, applyInvokeOpts, WithInvokeTopic] using h

/-- C6: every completed `Invoke` call produces exactly one response, and
the list of responses published on the `Responses` channel during the call
is exactly the singleton of the returned response, in every branch. -/
theorem claim_C6 (i : Invoker) (net : Net) (fn : String) (msg : Option Bytes)
    (hdrs : Option Header) (opts : List InvokeOptionFunc) (out : InvokeOutcome)
    (hout : i.Invoke net fn msg hdrs opts = some out) :
    out.published = [out.response] := by
  simp only [Invoker.Invoke] at hout
  split at hout
  · exact absurd hout (by simp)
  · split at hout <;>
    · obtain rfl := Option.some.inj hout
      rfl

/-- The response of `invDefault.Invoke netAlwaysOk "f" (some [1]) none []`. -/
def respOkExample : InvokerResponse :=
  { Body := some [], Status := 200, Header := some [], Function := "f" }

/-- The outcome of `invDefault.Invoke netAlwaysOk "f" (some [1]) none []`. -/
def outOkExample : InvokeOutcome :=
  { response := respOkExample, published := [respOkExample],
    calls := [{ method := "POST", url := "/f", body := [1],
                header := [("X-Connector", ["connector-sdk"])] }] }

/-- C6 witness: on a concrete successful call, the published list is the
singleton of the returned response. -/
theorem claim_C6_witness : outOkExample.published = [outOkExample.response] :=
  claim_C6 invDefault netAlwaysOk "f" (some [1]) none [] outOkExample (by rfl)

/-- C7: what actually holds for `Content-Type` and `X-Callback-Url` on the
outbound request: the per-call override wins when non-empty, else the
invoker-level default when non-empty, else the caller-supplied header
values pass through unchanged (absent if the caller supplied none). -/
theorem claim_C7 (i : Invoker) (net : Net) (fn : String) (msg : Option Bytes)
    (hdrs : Option Header) (opts : List InvokeOptionFunc) (out : InvokeOutcome)
    (hwfct : keyWF (hdrs.getD []) "Content-Type")
    (hwfcb : keyWF (hdrs.getD []) "X-Callback-Url")
    (hout : i.Invoke net fn msg hdrs opts = some out) :
    ∀ req ∈ out.calls,
      (headerGetValues req.header "Content-Type"
        = if (applyInvokeOpts opts).contentType != "" then
            some [(applyInvokeOpts opts).contentType]
          else if i.ContentType != "" then some [i.ContentType]
          else headerGetValues (hdrs.getD []) "Content-Type") ∧
      (headerGetValues req.header "X-Callback-Url"
        = if (applyInvokeOpts opts).asyncCallbackURL != "" then
            some [(applyInvokeOpts opts).asyncCallbackURL]
          else if i.opts.asyncCallbackURL != "" then some [i.opts.asyncCallbackURL]
          else headerGetValues (hdrs.getD []) "X-Callback-Url") := by
  intro req hreq
  rw [Invoke_req_eq i net fn msg hdrs opts out hout req hreq]
  exact ⟨getValues_outbound_contentType i (applyInvokeOpts opts) (hdrs.getD []) hwfct,
    getValues_outbound_callback i (applyInvokeOpts opts) (hdrs.getD []) hwfcb⟩

/-- C7 counterexample: with no per-call override and no invoker default,
but a caller-supplied `Content-Type` header, the outbound request carries
that `Content-Type` — the claim says it should then be absent. -/
theorem claim_C7_counterexample :
    (invDefault.Invoke netAlwaysOk "f" (some [1])
        (some [("Content-Type", ["text/plain"])]) []).map
        (fun out => out.calls.map (fun r => headerGetValues r.header "Content-Type"))
      = some [some ["text/plain"]] := by
  rfl

/-- The request issued by `invC7Example.Invoke netAlwaysOk "f" (some [1]) none
[WithInvokeContentType "application/json", WithInvokeAsyncCallbackURL "http://cb"]`. -/
def reqC7Example : HttpRequest :=
  { method := "POST", url := "/f", body := [1],
    header := [("X-Connector", ["connector-sdk"]), ("X-Callback-Url", ["http://cb"]),
               ("Content-Type", ["application/json"])] }

/-- The response of that call. -/
def respC7Example : InvokerResponse :=
  { Body := some [], Status := 200, Header := some [], Function := "f" }

/-- The outcome of that call. -/
def outC7Example : InvokeOutcome :=
  { response := respC7Example, published := [respC7Example], calls := [reqC7Example] }

/-- C7 witness: the per-call content type and callback URL override the
invoker-level defaults on the outbound request. -/
theorem claim_C7_witness :
    headerGetValues reqC7Example.header "Content-Type" = some ["application/json"] ∧
    headerGetValues reqC7Example.header "X-Callback-Url" = some ["http://cb"] := by
  have h := claim_C7 invC7Example netAlwaysOk "f" (some [1]) none
      [WithInvokeContentType "application/json", WithInvokeAsyncCallbackURL "http://cb"]
      outC7Example (Or.inl rfl) (Or.inl rfl) (by rfl) reqC7Example (by simp [outC7Example])
  exact ⟨h.1.trans (by rfl), h.2.trans (by rfl)⟩

/-- C8: evaluation at the failing input (a caller-supplied `X-Connector`
header).  The guard in `Invoker.invoke` reads `req.Header` before the
caller headers are merged in, so it always fires: the outbound request ends
up with `X-Connector` holding the two values `connector-sdk` (set first)
and the caller's value (added after) — the caller's value is not preserved
as the sole value, contradicting the claim and the guard's evident intent. -/
theorem claim_C8 :
    (invDefault.Invoke netAlwaysOk "f" (some [1])
        (some [("X-Connector", ["my-connector"])]) []).map
        (fun out => out.calls.map (fun r => headerGetValues r.header "X-Connector"))
      = some [some ["connector-sdk", "my-connector"]] := by
  rfl

/-- C10: `InvokeWithTopic` with a nil topic map and a non-empty payload
publishes exactly one response carrying the "no message to send" error and
returns without matching any table or issuing any HTTP request. -/
theorem claim_C10 (i : Invoker) (net : Net) (topic : String) (b : Nat) (bs : Bytes)
    (hdrs : Option Header) (opts : List InvokeOptionFunc) :
    i.InvokeWithTopic net none topic (some (b :: bs)) hdrs opts
      = some ([{ Error := some .noMessageToSend }], []) := by
  rfl

end ConnectorSdk
